import Mathlib

/-!
Verification of the MW-Omega orchestrator's analytical core
(`mw_orchestrator.py`): the Monte Carlo survival simulator
(`run_monte_carlo`, lines 261-335) and the vendor dependency-graph
SPOF analyzer (`run_dependency_graph`, lines 457-521).

Embedding conventions:
* Python floats are modelled as exact rationals (`ℚ`).
* The global pseudo-random generator (`random.seed(42)` followed by
  `random.random()` / `random.gauss(mu, sigma)` calls) is modelled as a
  deterministic stream `g : ℕ → ℚ` together with a cursor index threaded
  through the computation: each `random.random()` call reads one stream
  element and advances the cursor, and each `random.gauss(mu, sigma)`
  call reads one element `z` and returns `mu + sigma * z`.  This keeps
  the exact order in which the source consumes randomness: per month,
  one activation draw per stream, then one noise draw for each active
  stream, then one expense draw; months within a scenario and scenarios
  within a run thread the same cursor.
* Python's `round(x, d)` (round-half-to-even on the d-th decimal) is
  modelled exactly on `ℚ` by `roundTo`.
* The hard-coded module-level configuration tables (`REVENUE_STREAMS`,
  `STOP_RULES`, `SIMULATION_MONTHS`, `VENDOR_DEPENDENCIES`, the expense
  distribution and starting cash) are lifted into explicit configuration
  records, matching the parameterization the spec gives for
  `simulate_survival` / `analyze_dependencies`; the loop bodies are
  translated line by line from the source.
-/

namespace MW

/-- Round half to even to the nearest integer, as Python's `round` does. -/
def rhe (x : ℚ) : ℤ :=
  if x - ⌊x⌋ < 1/2 then ⌊x⌋
  else if 1/2 < x - ⌊x⌋ then ⌊x⌋ + 1
  else if ⌊x⌋ % 2 = 0 then ⌊x⌋ else ⌊x⌋ + 1

/-- Python's `round(x, d)`: round half to even at the d-th decimal digit. -/
def roundTo (d : ℕ) (x : ℚ) : ℚ :=
  (rhe (x * 10 ^ d) : ℚ) / 10 ^ d

/-- A revenue stream's parameters, one entry of `REVENUE_STREAMS`
(mw_orchestrator.py lines 161-211).  `concentration_current` is carried
but, as in the source, never read by the simulation loop. -/
structure RevStream where
  name : String
  monthly_base : ℚ
  monthly_upside : ℚ
  probability_active : ℚ
  volatility : ℚ
  concentration_current : ℚ
deriving Repr, DecidableEq

/-- Simulation configuration: the stream table, the stop-rule thresholds
read by the loop (`STOP_RULES["liquidity_floor"]`,
`STOP_RULES["concentration_cap"]`), the horizon (`SIMULATION_MONTHS`),
the scenario count (`SIMULATION_SCENARIOS`), the starting cash and the
expense distribution parameters (`random.gauss(5500, 500)` in the
reference configuration). -/
structure SimConfig where
  streams : List RevStream
  liquidity_floor : ℚ
  concentration_cap : ℚ
  horizon : ℕ
  scenarios : ℕ
  startingCash : ℚ
  expenseMean : ℚ
  expenseStdev : ℚ
deriving Repr, DecidableEq

/-- The random stream backing the seeded global generator. -/
def Gen : Type := ℕ → ℚ

/-- One month's inner stream loop (lines 278-298): for each stream draw
the activation uniform, apply the dormant-stream activation boost when
`monthly_base` is not positive, and when active draw the gaussian noise
and compute `max(0, base + (upside-base) * max(0, 0.5 + noise))`.
Returns the rounded per-stream revenues in stream order
(`month_by_stream` / `stream_revenues` store `round(revenue, 2)`), the
unrounded month revenue sum (`month_revenue`), and the advanced cursor. -/
def monthDraws (g : Gen) (month : ℕ) : List RevStream → ℕ → List ℚ × ℚ × ℕ
  | [], idx => ([], 0, idx)
  | s :: rest, idx =>
    let u := g idx
    let active :=
      if s.monthly_base > 0 then u < s.probability_active
      else u < s.probability_active + min ((month : ℚ) * 0.02) 0.15
    let (rev, idx1) :=
      if active then
        let noise := s.volatility * g (idx + 1)
        (max 0 (s.monthly_base + (s.monthly_upside - s.monthly_base) * max 0 (0.5 + noise)),
          idx + 2)
      else
        ((0 : ℚ), idx + 1)
    let (restRevs, restSum, idx2) := monthDraws g month rest idx1
    (roundTo 2 rev :: restRevs, rev + restSum, idx2)

/-- Mutable per-scenario state of the month loop (lines 267-272):
random cursor, `cash_reserve`, `months_survived`, `liquidity_breaches`,
`concentration_violations`, `monthly_totals` and the per-stream revenue
lists (kept positionally parallel to the stream table). -/
structure ScenState where
  idx : ℕ
  cash : ℚ
  monthsSurvived : ℕ
  liqBreaches : ℕ
  concViols : ℕ
  monthlyTotals : List ℚ
  streamRevs : List (List ℚ)
deriving Repr, DecidableEq

/-- One month of the scenario loop body (lines 274-314): stream draws,
expense draw `random.gauss(mean, stdev)`, cash update, liquidity-floor
check on the updated reserve, and concentration check comparing the
largest rounded stream revenue against the unrounded month total. -/
def monthStep (cfg : SimConfig) (g : Gen) (month : ℕ) (st : ScenState) : ScenState :=
  let md := monthDraws g month cfg.streams st.idx
  let monthRevs := md.1
  let monthRevenue := md.2.1
  let idx1 := md.2.2
  let expenses := cfg.expenseMean + cfg.expenseStdev * g idx1
  let cash1 := st.cash + monthRevenue - expenses
  { st with
    idx := idx1 + 1
    cash := cash1
    liqBreaches := st.liqBreaches + (if cash1 < cfg.liquidity_floor then 1 else 0)
    concViols := st.concViols +
      (if monthRevenue > 0 ∧ monthRevs.foldl max 0 / monthRevenue > cfg.concentration_cap
       then 1 else 0)
    monthlyTotals := st.monthlyTotals ++ [roundTo 2 monthRevenue]
    streamRevs := List.zipWith (fun l r => l ++ [r]) st.streamRevs monthRevs }

/-- The month loop with the survival check (lines 274-320): after each
month, if `cash_reserve > -20000` record `months_survived = month` and
continue, otherwise break out of the loop without touching
`months_survived`.  Recursion is on the number of remaining months, so
an early break structurally simulates no further months. -/
def runScenarioAux (cfg : SimConfig) (g : Gen) : ℕ → ℕ → ScenState → ScenState
  | _, 0, st => st
  | month, rem + 1, st =>
    let st1 := monthStep cfg g month st
    if -20000 < st1.cash then
      runScenarioAux cfg g (month + 1) rem { st1 with monthsSurvived := month }
    else
      st1

/-- Fresh per-scenario state (lines 267-272), with the random cursor
carried over from the previous scenario (the source uses the single
global generator across all scenarios). -/
def initState (cfg : SimConfig) (idx : ℕ) : ScenState :=
  { idx := idx
    cash := cfg.startingCash
    monthsSurvived := 0
    liqBreaches := 0
    concViols := 0
    monthlyTotals := []
    streamRevs := cfg.streams.map (fun _ => []) }

/-- One simulated trajectory's outcome (lines 322-333). -/
structure ScenarioResult where
  scenario_id : ℕ
  months_survived : ℕ
  final_cash : ℚ
  total_revenue : ℚ
  avg_monthly : ℚ
  liquidity_breaches : ℕ
  concentration_violations : ℕ
  stream_totals : List (String × ℚ)
deriving Repr, DecidableEq

/-- Build the emitted `ScenarioResult` record from the final loop state
(lines 322-333).  `statistics.mean` is `sum / length`; on an empty
month list (horizon 0) the source would raise, here division by zero
yields 0. -/
def mkResult (cfg : SimConfig) (sid : ℕ) (st : ScenState) : ScenarioResult :=
  { scenario_id := sid
    months_survived := st.monthsSurvived
    final_cash := roundTo 2 st.cash
    total_revenue := roundTo 2 st.monthlyTotals.sum
    avg_monthly := roundTo 2 (st.monthlyTotals.sum / st.monthlyTotals.length)
    liquidity_breaches := st.liqBreaches
    concentration_violations := st.concViols
    stream_totals :=
      List.zip (cfg.streams.map RevStream.name)
        (st.streamRevs.map (fun l => roundTo 2 l.sum)) }

/-- The scenario loop (lines 266-333), threading the random cursor from
one scenario into the next. -/
def simulateAux (cfg : SimConfig) (g : Gen) : ℕ → ℕ → ℕ → List ScenarioResult
  | 0, _, _ => []
  | n + 1, sid, idx =>
    let st := runScenarioAux cfg g 1 cfg.horizon (initState cfg idx)
    mkResult cfg sid st :: simulateAux cfg g n (sid + 1) st.idx

/-- The simulation phase of `run_monte_carlo` (lines 261-335), as a function
of the configuration and the seeded random stream: the list of
`ScenarioResult`s in scenario order. -/
def simulateSurvival (cfg : SimConfig) (g : Gen) : List ScenarioResult :=
  simulateAux cfg g cfg.scenarios 0 0

/-- A vendor node, one entry of `VENDOR_DEPENDENCIES["nodes"]`
(mw_orchestrator.py lines 228-241). -/
structure VendorNode where
  id : String
  type : String
  criticality : String
  alternatives : List String
deriving Repr, DecidableEq

/-- The node-and-edge configuration consumed by `run_dependency_graph`
(`VENDOR_DEPENDENCIES`, lines 227-257): declared nodes in table order
and weighted directed edges in list order. -/
structure GraphConfig where
  nodes : List VendorNode
  edges : List (String × String × ℚ)
deriving Repr, DecidableEq

/-- Add a node id if not already present (networkx `add_node`). -/
def addNode (l : List String) (n : String) : List String :=
  if n ∈ l then l else l ++ [n]

/-- The node set of the built `nx.DiGraph`, in insertion order: first
the declared nodes (lines 466-467), then — crucially — any edge
endpoint not yet present, because `G.add_edge` silently creates missing
endpoints (lines 470-471). -/
def nodesOf (cfg : GraphConfig) : List String :=
  cfg.edges.foldl (fun l e => addNode (addNode l e.1) e.2.1)
    (cfg.nodes.foldl (fun l nd => addNode l nd.id) [])

/-- Deduplicated edge list with networkx semantics: a repeated
`add_edge (u, v)` keeps the adjacency position of the first insertion
but overwrites the weight with the last one. -/
def insertEdge (acc : List (String × String × ℚ)) (e : String × String × ℚ) :
    List (String × String × ℚ) :=
  if acc.any (fun x => x.1 = e.1 ∧ x.2.1 = e.2.1) then
    acc.map (fun x => if x.1 = e.1 ∧ x.2.1 = e.2.1 then (x.1, x.2.1, e.2.2) else x)
  else acc ++ [e]

/-- The digraph's stored edges after all `add_edge` calls. -/
def uniqueEdges (cfg : GraphConfig) : List (String × String × ℚ) :=
  cfg.edges.foldl insertEdge []

/-- Weight of the stored edge `u → v`, if present (`G[u][v]["weight"]`). -/
def edgeWeight (cfg : GraphConfig) (u v : String) : Option ℚ :=
  ((uniqueEdges cfg).find? (fun x => x.1 = u ∧ x.2.1 = v)).map (fun x => x.2.2)

/-- Successors of `u` in adjacency insertion order (`G.successors`). -/
def successors (cfg : GraphConfig) (u : String) : List String :=
  ((uniqueEdges cfg).filter (fun e => e.1 = u)).map (fun e => e.2.1)

/-- Weighted out-degree: sum of outgoing edge weights
(`G.out_degree(weight="weight")`, line 476). -/
def outDegW (cfg : GraphConfig) (u : String) : ℚ :=
  (((uniqueEdges cfg).filter (fun e => e.1 = u)).map (fun e => e.2.2)).sum

/-- Weighted in-degree: sum of incoming edge weights (line 475). -/
def inDegW (cfg : GraphConfig) (u : String) : ℚ :=
  (((uniqueEdges cfg).filter (fun e => e.2.1 = u)).map (fun e => e.2.2)).sum

/-- Minimum on optional distances, `none` meaning unreachable. -/
def omin : Option ℚ → Option ℚ → Option ℚ
  | none, b => b
  | a, none => a
  | some a, some b => some (min a b)

/-- Sum on optional distances. -/
def oadd : Option ℚ → Option ℚ → Option ℚ
  | some a, some b => some (a + b)
  | _, _ => none

/-- Base distances: 0 on the diagonal, else the direct edge weight. -/
def dist0 (cfg : GraphConfig) (u v : String) : Option ℚ :=
  if u = v then some 0 else edgeWeight cfg u v

/-- Weighted shortest-path distances via Floyd–Warshall.  The source
computes them through networkx's Dijkstra-based routines; on the
nonnegative weights used here the two algorithms agree. -/
def distFW (cfg : GraphConfig) : String → String → Option ℚ :=
  (nodesOf cfg).foldl
    (fun d k => fun u v => omin (d u v) (oadd (d u k) (d k v)))
    (dist0 cfg)

/-- Whether the stored edge `u → t` lies on a shortest path from `s` to
`t` (Brandes' tight-predecessor condition). -/
def tightPred (cfg : GraphConfig) (s u t : String) : Bool :=
  match distFW cfg s t, distFW cfg s u, edgeWeight cfg u t with
  | some c, some a, some w => a + w = c
  | _, _, _ => false

/-- Number of shortest weighted paths from `s` to `t`, by backward
recursion over tight predecessor edges; `fuel` bounds the recursion
(a shortest path visits each node at most once). -/
def countSP (cfg : GraphConfig) : ℕ → String → String → ℕ
  | 0, _, _ => 0
  | fuel + 1, s, t =>
    if s = t then 1
    else ((nodesOf cfg).filter (fun u => tightPred cfg s u t)).foldl
      (fun acc u => acc + countSP cfg fuel s u) 0

/-- The count `σ(s, t)` of shortest paths, with enough fuel for any simple path. -/
def sigmaSP (cfg : GraphConfig) (s t : String) : ℕ :=
  countSP cfg (nodesOf cfg).length s t

/-- Pair dependency `σ(s, t | v) / σ(s, t)` of Brandes' betweenness
accumulation: the fraction of shortest `s → t` paths through `v`. -/
def pairDep (cfg : GraphConfig) (s t v : String) : ℚ :=
  let st := sigmaSP cfg s t
  if st = 0 then 0
  else
    match distFW cfg s v, distFW cfg v t, distFW cfg s t with
    | some a, some b, some c =>
      if a + b = c then ((sigmaSP cfg s v * sigmaSP cfg v t : ℕ) : ℚ) / (st : ℚ) else 0
    | _, _, _ => 0

/-- Embeds `nx.betweenness_centrality(G, weight="weight")` (line 474):
sum of pair dependencies over ordered pairs of distinct endpoints other
than `v`, rescaled by `1 / ((n-1) * (n-2))` for a directed graph on
more than two nodes (networkx `normalized=True` default). -/
def betweennessQ (cfg : GraphConfig) (v : String) : ℚ :=
  let ns := nodesOf cfg
  let n := ns.length
  let raw := (ns.filter (fun s => s ≠ v)).foldl
    (fun acc s =>
      acc + ((ns.filter (fun t => t ≠ v ∧ t ≠ s)).foldl
        (fun acc2 t => acc2 + pairDep cfg s t v) 0)) 0
  if 2 < n then raw / (((n : ℚ) - 1) * ((n : ℚ) - 2)) else raw

/-- Embeds `nx.closeness_centrality(G, distance="weight")` (line 477): for the
incoming distances (networkx uses the reversed graph on digraphs), with
the Wasserman–Faust reachability correction (`wf_improved=True`
default); 0 when nothing reaches the node or the graph is trivial. -/
def closenessQ (cfg : GraphConfig) (u : String) : ℚ :=
  let ns := nodesOf cfg
  let n := ns.length
  let reach := ns.filter (fun v => (distFW cfg v u).isSome)
  let tot := (reach.map (fun v => (distFW cfg v u).getD 0)).sum
  if 0 < tot ∧ 1 < n then
    (((reach.length : ℚ) - 1) / tot) * (((reach.length : ℚ) - 1) / ((n : ℚ) - 1))
  else 0

/-- The criticality tier weights with their 0.5 default
(`criticality_weight.get(...)`, lines 484-485). -/
def critWeight (c : String) : ℚ :=
  if c = "critical" then 1
  else if c = "high" then 0.7
  else if c = "medium" then 0.4
  else if c = "low" then 0.2
  else 0.5

/-- The `alternatives_penalty` (line 486): 1 with no alternatives, else
`1 / (1 + 0.3 * alt_count)`. -/
def altPenalty (n : ℕ) : ℚ :=
  if n = 0 then 1 else 1 / (1 + (n : ℚ) * 0.3)

/-- The per-node score computation (lines 488-495): the weighted
centrality combination times the alternatives penalty, scaled by 100
and stored as `round(spof * 100, 1)`. -/
def nodeScore (b c od mo cw pen : ℚ) : ℚ :=
  roundTo 1 ((b * 0.35 + c * 0.30 + od / mo * 0.20 + cw * 0.15) * pen * 100)

/-- Embeds `max(out_degree.values(), default=1) or 1` (line 481): the maximal
weighted out-degree, with 1 substituted for an empty table or a zero
maximum. -/
def maxOutFloor (cfg : GraphConfig) : ℚ :=
  let m := match (nodesOf cfg).map (outDegW cfg) with
    | [] => 1
    | x :: xs => xs.foldl max x
  if m = 0 then 1 else m

/-- Embeds `VENDOR_DEPENDENCIES["nodes"][n]`: attribute lookup in the declared
node table. -/
def lookupNode (cfg : GraphConfig) (n : String) : Option VendorNode :=
  cfg.nodes.find? (fun nd => nd.id = n)

/-- One iteration of the SPOF scoring loop (lines 482-495).  The
Python dict subscript raises `KeyError` when a graph node is absent
from the declared table (possible exactly when an edge endpoint was
undeclared), modelled by the error case carrying the offending id. -/
def scoreNode (cfg : GraphConfig) (n : String) : Except String ℚ :=
  match lookupNode cfg n with
  | none => .error n
  | some nd =>
    .ok (nodeScore (betweennessQ cfg n) (closenessQ cfg n) (outDegW cfg n)
      (maxOutFloor cfg) (critWeight nd.criticality) (altPenalty nd.alternatives.length))

/-- The scoring loop over a node list, stopping at the first failing
attribute lookup as the Python loop would. -/
def scoreList (cfg : GraphConfig) : List String → Except String (List (String × ℚ))
  | [] => .ok []
  | n :: rest =>
    match scoreNode cfg n with
    | .error e => .error e
    | .ok s =>
      match scoreList cfg rest with
      | .error e => .error e
      | .ok l => .ok ((n, s) :: l)

/-- The `spof_scores` table (lines 480-495): the score mapping over all graph
nodes, or the first lookup failure. -/
def spofScoresExc (cfg : GraphConfig) : Except String (List (String × ℚ)) :=
  scoreList cfg (nodesOf cfg)

/-- Score of `n` in a computed score table (`spof_scores[node]`; every
declared node is a graph node, so within the ok case the default is
never reached). -/
def lookupScore (scores : List (String × ℚ)) (n : String) : ℚ :=
  ((scores.find? (fun p => p.1 = n)).map (fun p => p.2)).getD 0

/-- The `true_spofs` list (lines 498-501): declared nodes with no alternatives
and score above 10, in table order. -/
def trueSpofsOf (cfg : GraphConfig) (scores : List (String × ℚ)) : List String :=
  (cfg.nodes.filter
    (fun nd => nd.alternatives.length = 0 ∧ lookupScore scores nd.id > 10)).map
    (fun nd => nd.id)

/-- DFS enumeration of the simple paths from the current node to `dst`
(`nx.all_simple_paths`, line 509): extend along stored edges, skipping
already-visited nodes; a branch reaching `dst` yields its path.  `fuel`
bounds the depth; a simple path visits each node at most once, so the
node count is always enough fuel. -/
def simplePathsAux (cfg : GraphConfig) (dst : String) :
    ℕ → String → List String → List (List String)
  | 0, _, _ => []
  | fuel + 1, cur, visited =>
    if cur = dst then [[cur]]
    else
      ((successors cfg cur).filter (fun n => ¬ visited.contains n)).flatMap
        (fun n => (simplePathsAux cfg dst fuel n (n :: visited)).map (fun p => cur :: p))

/-- All simple directed paths from `src` to `dst`. -/
def simplePaths (cfg : GraphConfig) (src dst : String) : List (List String) :=
  simplePathsAux cfg dst (nodesOf cfg).length src [src]

/-- A path's total weight: the sum of its consecutive edge weights
(`sum(G[path[i]][path[i+1]]["weight"] ...)`, lines 512-514).  The
enumeration only emits edge-connected paths, so the 0 default of the
lookup is never reached there. -/
def pathWeight (cfg : GraphConfig) : List String → ℚ
  | a :: b :: rest => (edgeWeight cfg a b).getD 0 + pathWeight cfg (b :: rest)
  | _ => 0

/-- The unsorted `critical_paths` accumulation (lines 504-517): for
every ordered pair of distinct graph nodes, the simple paths of at
least three nodes, each paired with its total weight.  (The
`NetworkXError` guard in the source is unreachable: both endpoints are
always graph nodes.) -/
def enumPaths (cfg : GraphConfig) : List (List String × ℚ) :=
  (nodesOf cfg).flatMap (fun src =>
    (nodesOf cfg).flatMap (fun dst =>
      if src = dst then []
      else ((simplePaths cfg src dst).filter (fun p => 3 ≤ p.length)).map
        (fun p => (p, pathWeight cfg p))))

/-- Stable descending insertion by weight: an element is placed before
every element of weight at most its own, so that elements of equal
weight keep their enumeration order (Python's `list.sort` with
`reverse=True` is stable). -/
def insertDesc (x : List String × ℚ) : List (List String × ℚ) → List (List String × ℚ)
  | [] => [x]
  | y :: l => if x.2 < y.2 then y :: insertDesc x l else x :: y :: l

/-- Stable sort, descending by weight (`critical_paths.sort(key=...,
reverse=True)`, line 519). -/
def sortDesc : List (List String × ℚ) → List (List String × ℚ)
  | [] => []
  | x :: l => insertDesc x (sortDesc l)

/-- The sorted `critical_paths` list. -/
def criticalPaths (cfg : GraphConfig) : List (List String × ℚ) :=
  sortDesc (enumPaths cfg)

/-- Unconditional month processing: runs `count` months starting at
month `m` with no survival check, used to state what an early-broken
trajectory has and has not accumulated.  One unfolding step agrees
with `monthStep`, so `runScenarioAux` differs from it only in the
survival gate and the `monthsSurvived` updates. -/
def processMonths (cfg : SimConfig) (g : Gen) : ℕ → ℕ → ScenState → ScenState
  | _, 0, st => st
  | m, count + 1, st => processMonths cfg g (m + 1) count (monthStep cfg g m st)

/-- Edge-connectedness of a node sequence: every consecutive pair is a
stored edge of the graph. -/
def chainOk (cfg : GraphConfig) : List String → Bool
  | a :: b :: rest => (edgeWeight cfg a b).isSome && chainOk cfg (b :: rest)
  | _ => true

/-- The stream-parameter validity condition of the spec's
error-handling design (spec section 7): upside at least base, and
nonnegative activation probability and volatility. -/
def streamParamsValid (s : RevStream) : Bool :=
  s.monthly_base ≤ s.monthly_upside ∧ 0 ≤ s.probability_active ∧ 0 ≤ s.volatility

/-- The all-zeros random stream. -/
def constZero : Gen := fun _ => 0

/-- The constant one-half random stream. -/
def constHalf : Gen := fun _ => 1/2

/-- The hard-coded reference configuration of `run_monte_carlo`:
`REVENUE_STREAMS` (lines 161-211) in table order, the stop rules read
by the loop (lines 214-219), `SIMULATION_MONTHS = 12`,
`SIMULATION_SCENARIOS = 1000`, starting cash 0 and the
`random.gauss(5500, 500)` expense model. -/
def refConfig : SimConfig :=
  { streams :=
      [ { name := "consulting", monthly_base := 0, monthly_upside := 8000,
          probability_active := 0.30, volatility := 0.40, concentration_current := 0 }
      , { name := "government_contract", monthly_base := 7500, monthly_upside := 7500,
          probability_active := 0.95, volatility := 0.10, concentration_current := 0.793 }
      , { name := "kdp_books", monthly_base := 50, monthly_upside := 500,
          probability_active := 0.85, volatility := 0.60, concentration_current := 0.03 }
      , { name := "music_production", monthly_base := 0, monthly_upside := 300,
          probability_active := 0.20, volatility := 0.70, concentration_current := 0 }
      , { name := "substack_newsletter", monthly_base := 0, monthly_upside := 200,
          probability_active := 0.15, volatility := 0.50, concentration_current := 0 }
      , { name := "real_estate", monthly_base := 0, monthly_upside := 2000,
          probability_active := 0.05, volatility := 0.30, concentration_current := 0 }
      , { name := "framework_licensing", monthly_base := 0, monthly_upside := 1000,
          probability_active := 0.10, volatility := 0.80, concentration_current := 0 } ]
    liquidity_floor := 50000
    concentration_cap := 0.25
    horizon := 12
    scenarios := 1000
    startingCash := 0
    expenseMean := 5500
    expenseStdev := 500 }

/-- The spec's worked scenario (section 8): a single certain stream
with base = upside = 1000, no volatility, horizon 3, fixed expenses of
500 a month, starting cash 0; scenario count, liquidity floor and
concentration cap are left free. -/
def exampleCfg (n : ℕ) (floor cap : ℚ) : SimConfig :=
  { streams := [{ name := "s", monthly_base := 1000, monthly_upside := 1000,
                  probability_active := 1, volatility := 0, concentration_current := 0 }]
    liquidity_floor := floor
    concentration_cap := cap
    horizon := 3
    scenarios := n
    startingCash := 0
    expenseMean := 500
    expenseStdev := 0 }

/-- A stream violating every validity condition of spec section 7:
upside below base, negative activation probability, negative
volatility. -/
def badStream : RevStream :=
  { name := "s", monthly_base := 1000, monthly_upside := 500,
    probability_active := -1/2, volatility := -1/4, concentration_current := 0 }

/-- A two-scenario, two-month configuration built on `badStream`. -/
def badCfg : SimConfig :=
  { streams := [badStream]
    liquidity_floor := 50000
    concentration_cap := 1/4
    horizon := 2
    scenarios := 2
    startingCash := 0
    expenseMean := 5500
    expenseStdev := 500 }

/-- A configuration whose first month is already insolvent: no
revenue streams and a fixed 30000 monthly expense. -/
def breachCfg : SimConfig :=
  { streams := []
    liquidity_floor := 0
    concentration_cap := 1/4
    horizon := 2
    scenarios := 1
    startingCash := 0
    expenseMean := 30000
    expenseStdev := 0 }

/-- A one-node graph configuration: tier `medium`, one alternative, no
edges. -/
def singletonCfg : GraphConfig :=
  { nodes := [{ id := "x", type := "t", criticality := "medium", alternatives := ["y"] }]
    edges := [] }

/-- A configuration with a dangling edge: node `b` is an edge endpoint
but is not declared in the node table. -/
def danglingCfg : GraphConfig :=
  { nodes := [{ id := "a", type := "t", criticality := "critical", alternatives := [] }]
    edges := [("a", "b", 5)] }

/-- A three-node directed cycle with unit weights. -/
def cycleCfg : GraphConfig :=
  { nodes := [ { id := "a", type := "t", criticality := "high", alternatives := [] }
             , { id := "b", type := "t", criticality := "high", alternatives := [] }
             , { id := "c", type := "t", criticality := "high", alternatives := [] } ]
    edges := [("a", "b", 1), ("b", "c", 1), ("c", "a", 1)] }

/-- The structured output of the dependency analysis (the data handed
to `_format_depgraph_report`, line 521). -/
structure DepAnalysis where
  spofScores : List (String × ℚ)
  betweenness : List (String × ℚ)
  closeness : List (String × ℚ)
  inDegree : List (String × ℚ)
  outDegree : List (String × ℚ)
  trueSpofs : List String
  criticalPaths : List (List String × ℚ)
deriving Repr, DecidableEq

/-- The analysis phase of `run_dependency_graph` (lines 457-521) as a
function of the configuration: centrality tables, SPOF scores, true
SPOFs and ranked critical paths, or the first attribute-lookup failure
raised by the scoring loop. -/
def analyzeDependencies (cfg : GraphConfig) : Except String DepAnalysis :=
  match spofScoresExc cfg with
  | .error e => .error e
  | .ok scores =>
    .ok
      { spofScores := scores
        betweenness := (nodesOf cfg).map (fun n => (n, betweennessQ cfg n))
        closeness := (nodesOf cfg).map (fun n => (n, closenessQ cfg n))
        inDegree := (nodesOf cfg).map (fun n => (n, inDegW cfg n))
        outDegree := (nodesOf cfg).map (fun n => (n, outDegW cfg n))
        trueSpofs := trueSpofsOf cfg scores
        criticalPaths := criticalPaths cfg }

/-! ### Helper lemmas -/

lemma simulateAux_length (cfg : SimConfig) (g : Gen) :
    ∀ (n sid idx : ℕ), (simulateAux cfg g n sid idx).length = n
  | 0, _, _ => rfl
  | n + 1, sid, idx => by
    simp only [simulateAux, List.length_cons, simulateAux_length cfg g n]

lemma mem_addNode_self (l : List String) (n : String) : n ∈ addNode l n := by
  unfold addNode; split
  · assumption
  · simp

lemma mem_addNode_of_mem {x : String} (l : List String) (n : String) (h : x ∈ l) :
    x ∈ addNode l n := by
  unfold addNode; split
  · exact h
  · simp [h]

lemma mem_foldl_addNodes {x : String} :
    ∀ (es : List (String × String × ℚ)) (acc : List String), x ∈ acc →
      x ∈ es.foldl (fun l e => addNode (addNode l e.1) e.2.1) acc
  | [], _, h => h
  | _ :: es, _, h =>
    mem_foldl_addNodes es _ (mem_addNode_of_mem _ _ (mem_addNode_of_mem _ _ h))

lemma endpoints_mem_foldl {u v : String} {w : ℚ} :
    ∀ (es : List (String × String × ℚ)) (acc : List String), (u, v, w) ∈ es →
      u ∈ es.foldl (fun l e => addNode (addNode l e.1) e.2.1) acc ∧
      v ∈ es.foldl (fun l e => addNode (addNode l e.1) e.2.1) acc
  | e :: es, acc, h => by
    rcases List.mem_cons.mp h with heq | htl
    · subst heq
      exact ⟨mem_foldl_addNodes es _ (mem_addNode_of_mem _ _ (mem_addNode_self _ _)),
             mem_foldl_addNodes es _ (mem_addNode_self _ _)⟩
    · exact endpoints_mem_foldl es _ htl

lemma insertDesc_filter (k : ℚ) (x : List String × ℚ) :
    ∀ l : List (List String × ℚ),
      (insertDesc x l).filter (fun e => decide (e.2 = k)) =
        if x.2 = k then x :: l.filter (fun e => decide (e.2 = k))
        else l.filter (fun e => decide (e.2 = k))
  | [] => by
    by_cases hx : x.2 = k <;> simp [insertDesc, hx]
  | y :: l => by
    by_cases hxy : x.2 < y.2
    · rw [show insertDesc x (y :: l) = y :: insertDesc x l from by
        simp [insertDesc, hxy]]
      by_cases hx : x.2 = k
      · have hy : ¬ y.2 = k := fun hyk => absurd hxy (by rw [hyk, hx]; exact lt_irrefl k)
        simp [List.filter_cons, hx, hy, insertDesc_filter k x l]
      · by_cases hy : y.2 = k <;>
          simp [List.filter_cons, hx, hy, insertDesc_filter k x l]
    · rw [show insertDesc x (y :: l) = x :: y :: l from by simp [insertDesc, hxy]]
      by_cases hx : x.2 = k <;> simp [List.filter_cons, hx]

lemma sortDesc_filter (k : ℚ) :
    ∀ l : List (List String × ℚ),
      (sortDesc l).filter (fun e => decide (e.2 = k)) =
        l.filter (fun e => decide (e.2 = k))
  | [] => rfl
  | x :: l => by
    rw [show sortDesc (x :: l) = insertDesc x (sortDesc l) from rfl,
      insertDesc_filter k x (sortDesc l), sortDesc_filter k l]
    by_cases hx : x.2 = k <;> simp [List.filter_cons, hx]

/-! ### Claims -/

/-- C1: the survival simulation is a deterministic function of the
configuration and the seeded random stream: two runs over identical
configuration and pointwise-identical random streams produce identical
`ScenarioResult` sequences.  The embedding consumes the stream through
a single sequential cursor — per month one activation draw per stream
and a noise draw per active stream, then the expense draw; months and
scenarios thread the same cursor — so the stream values determine every
draw in the source's order. -/
theorem mc_determinism (cfg : SimConfig) (g₁ g₂ : Gen) (h : ∀ n, g₁ n = g₂ n) :
    simulateSurvival cfg g₁ = simulateSurvival cfg g₂ := by
  have hg : g₁ = g₂ := funext h
  rw [hg]

theorem mc_determinism_witness :
    simulateSurvival refConfig constHalf = simulateSurvival refConfig constHalf :=
  mc_determinism refConfig constHalf constHalf (fun _ => rfl)

/-- C2, counterexample: `badStream` violates every validity condition
(upside < base, negative probability, negative volatility), yet the
simulation does not fail before any scenario is simulated — it runs
and emits a result for each of the two requested scenarios.  The
source contains no configuration validation at all (`run_monte_carlo`
goes straight from `random.seed(42)` into the scenario loop). -/
theorem mc_no_validation_counterexample :
    streamParamsValid badStream = false ∧ badCfg.streams = [badStream] ∧
    (simulateSurvival badCfg constZero).length = 2 ∧ badCfg.scenarios = 2 :=
  ⟨by decide, rfl, by decide, rfl⟩

/-- C2, amended: the simulation performs no configuration validation;
on every configuration — valid or not — it simulates and returns
exactly `scenarios` many results, processing invalid stream parameters
as-is (it neither raises nor clamps them). -/
theorem mc_runs_without_validation (cfg : SimConfig) (g : Gen) :
    (simulateSurvival cfg g).length = cfg.scenarios :=
  simulateAux_length cfg g cfg.scenarios 0 0

/-- C3, counterexample: `danglingCfg` declares only node `a` but has
an edge to the undeclared `b`; graph construction does not fail with
a referential-integrity error — it silently creates the missing
endpoint, exactly as networkx `add_edge` does (lines 470-471). -/
theorem graph_dangling_edge_counterexample :
    danglingCfg.nodes.map VendorNode.id = ["a"] ∧
    ("a", "b", (5 : ℚ)) ∈ danglingCfg.edges ∧
    nodesOf danglingCfg = ["a", "b"] :=
  ⟨rfl, by decide, by decide⟩

/-- C3, amended: dependency-graph construction never fails — every
edge endpoint ends up in the node set, a missing one being silently
created.  The dangling reference surfaces only later, as the
key-lookup failure of the SPOF scoring loop
(`VENDOR_DEPENDENCIES["nodes"][node]`, line 483) on the undeclared
node, which aborts the analysis with that node's id. -/
theorem graph_edge_endpoints_created :
    (∀ (cfg : GraphConfig) (u v : String) (w : ℚ), (u, v, w) ∈ cfg.edges →
      u ∈ nodesOf cfg ∧ v ∈ nodesOf cfg) ∧
    spofScoresExc danglingCfg = Except.error "b" ∧
    analyzeDependencies danglingCfg = Except.error "b" := by
  refine ⟨fun cfg u v w h => endpoints_mem_foldl cfg.edges _ h, rfl, rfl⟩

theorem graph_edge_endpoints_created_witness :
    "a" ∈ nodesOf danglingCfg ∧ "b" ∈ nodesOf danglingCfg :=
  graph_edge_endpoints_created.1 danglingCfg "a" "b" 5 (by decide)

/-- C10: the dependency analysis is deterministic — equal
configurations yield equal SPOF scores, centrality tables, true-SPOF
lists and critical-path rankings (the embedding draws no randomness) —
and the critical-path sort is stable: for every weight, the sorted
list restricted to that weight is exactly the enumeration-ordered
sublist of that weight, so equal-weight paths are ordered identically
on every run. -/
theorem depgraph_deterministic_stable :
    (∀ cfg₁ cfg₂ : GraphConfig, cfg₁ = cfg₂ →
      analyzeDependencies cfg₁ = analyzeDependencies cfg₂) ∧
    (∀ (cfg : GraphConfig) (k : ℚ),
      (criticalPaths cfg).filter (fun e => decide (e.2 = k)) =
        (enumPaths cfg).filter (fun e => decide (e.2 = k))) := by
  constructor
  · intro c1 c2 h
    rw [h]
  · intro cfg k
    exact sortDesc_filter k (enumPaths cfg)

theorem depgraph_deterministic_stable_witness :
    analyzeDependencies cycleCfg = analyzeDependencies cycleCfg :=
  depgraph_deterministic_stable.1 cycleCfg cycleCfg rfl

lemma scoreList_ok_mem (cfg : GraphConfig) :
    ∀ (ns : List String) (l : List (String × ℚ)), scoreList cfg ns = .ok l →
      ∀ p ∈ l, scoreNode cfg p.1 = .ok p.2
  | [], l, h => by
    simp only [scoreList, Except.ok.injEq] at h
    subst h
    intro p hp
    exact absurd hp (List.not_mem_nil p)
  | n :: rest, l, h => by
    intro p hp
    unfold scoreList at h
    cases hn : scoreNode cfg n with
    | error e => rw [hn] at h; exact absurd h (by simp)
    | ok s =>
      rw [hn] at h
      cases hr : scoreList cfg rest with
      | error e => rw [hr] at h; exact absurd h (by simp)
      | ok l2 =>
        rw [hr] at h
        simp only [Except.ok.injEq] at h
        subst h
        rcases List.mem_cons.mp hp with heq | htl
        · subst heq
          exact hn
        · exact scoreList_ok_mem cfg rest l2 hr p htl

/-- C4, counterexample: in `singletonCfg` the stored SpofScore of node
`x` is 4.6 — the formula value 60/13 = 4.615... rounded to one decimal
— so the computed score does not equal the claimed expression
`100 * alternatives_penalty * (0.35*betweenness + 0.30*closeness +
0.20*out_degree_ratio + 0.15*criticality_weight)` exactly: the source
stores `round(spof * 100, 1)` (line 495). -/
theorem spof_formula_counterexample :
    spofScoresExc singletonCfg = Except.ok [("x", 23/5)] ∧
    100 * altPenalty 1 *
      (0.35 * betweennessQ singletonCfg "x" + 0.30 * closenessQ singletonCfg "x" +
       0.20 * (outDegW singletonCfg "x" / maxOutFloor singletonCfg) +
       0.15 * critWeight "medium") = 60/13 ∧
    (23/5 : ℚ) ≠ 60/13 :=
  ⟨by with_unfolding_all rfl, by with_unfolding_all rfl, by norm_num⟩

/-- C4, amended: every stored SpofScore equals the claimed expression
rounded to one decimal place — for each node of the graph, with its
declared attributes, the score is
`round(100 * alternatives_penalty * (0.35*betweenness + 0.30*closeness
+ 0.20*(out_degree/max_out_degree) + 0.15*criticality_weight), 1)`,
where the criticality map and the alternatives penalty are as the
claim states them and the maximal out-degree is floored at 1. -/
theorem spof_score_rounded_formula (cfg : GraphConfig) (l : List (String × ℚ))
    (h : spofScoresExc cfg = .ok l) :
    ∀ p ∈ l, ∃ nd : VendorNode, lookupNode cfg p.1 = some nd ∧
      p.2 = roundTo 1 (100 * altPenalty nd.alternatives.length *
        (0.35 * betweennessQ cfg p.1 + 0.30 * closenessQ cfg p.1 +
         0.20 * (outDegW cfg p.1 / maxOutFloor cfg) +
         0.15 * critWeight nd.criticality)) := by
  intro p hp
  have hs := scoreList_ok_mem cfg (nodesOf cfg) l h p hp
  unfold scoreNode at hs
  cases hnd : lookupNode cfg p.1 with
  | none => rw [hnd] at hs; exact absurd hs (by simp)
  | some nd =>
    rw [hnd] at hs
    simp only [Except.ok.injEq] at hs
    refine ⟨nd, rfl, ?_⟩
    rw [← hs]
    unfold nodeScore
    congr 1
    ring

theorem spof_score_rounded_formula_witness :
    ∃ nd : VendorNode, lookupNode singletonCfg "x" = some nd ∧
      (23/5 : ℚ) = roundTo 1 (100 * altPenalty nd.alternatives.length *
        (0.35 * betweennessQ singletonCfg "x" + 0.30 * closenessQ singletonCfg "x" +
         0.20 * (outDegW singletonCfg "x" / maxOutFloor singletonCfg) +
         0.15 * critWeight nd.criticality)) :=
  spof_score_rounded_formula singletonCfg [("x", 23/5)] (by with_unfolding_all rfl)
    ("x", 23/5) (List.mem_singleton.mpr rfl)

lemma rhe_le (x : ℚ) : (rhe x : ℚ) ≤ x + 1/2 := by
  have h1 := Int.floor_le x
  have h2 := Int.lt_floor_add_one x
  unfold rhe
  split_ifs <;> push_cast <;> linarith

lemma le_rhe (x : ℚ) : x - 1/2 ≤ (rhe x : ℚ) := by
  have h1 := Int.floor_le x
  have h2 := Int.lt_floor_add_one x
  unfold rhe
  split_ifs <;> push_cast <;> linarith

lemma roundTo_one_le (z : ℚ) : roundTo 1 z ≤ z + 1/20 := by
  have h := rhe_le (z * 10 ^ 1)
  unfold roundTo
  rw [div_le_iff₀ (by norm_num : (0:ℚ) < 10 ^ 1)]
  push_cast at h ⊢
  linarith

lemma le_roundTo_one (z : ℚ) : z - 1/20 ≤ roundTo 1 z := by
  have h := le_rhe (z * 10 ^ 1)
  unfold roundTo
  rw [le_div_iff₀ (by norm_num : (0:ℚ) < 10 ^ 1)]
  push_cast at h ⊢
  linarith

lemma critWeight_ge (c : String) : 1/5 ≤ critWeight c := by
  unfold critWeight
  split_ifs <;> norm_num

/-- C8: for two nodes with identical betweenness, closeness, weighted
out-degree (and shared out-degree maximum) and criticality tier,
differing only in having zero versus at least one alternative, the
zero-alternatives node's SpofScore is strictly higher.  With
nonnegative centralities the shared base score is at least
0.15 * 0.2 = 0.03, so the strictness survives the one-decimal rounding
of the stored score. -/
theorem spof_alternatives_monotonic (b c od mo : ℚ) (crit : String) (a : ℕ)
    (hb : 0 ≤ b) (hc : 0 ≤ c) (hod : 0 ≤ od) (hmo : 1 ≤ mo) (ha : 1 ≤ a) :
    nodeScore b c od mo (critWeight crit) (altPenalty a) <
      nodeScore b c od mo (critWeight crit) (altPenalty 0) := by
  have hmo0 : (0 : ℚ) < mo := lt_of_lt_of_le one_pos hmo
  have hdiv : (0 : ℚ) ≤ od / mo := div_nonneg hod (le_of_lt hmo0)
  have hcw := critWeight_ge crit
  set B : ℚ := b * 0.35 + c * 0.30 + od / mo * 0.20 + critWeight crit * 0.15 with hB
  have hBpos : 3/100 ≤ B := by
    have h1 : (0:ℚ) ≤ b * 0.35 := by positivity
    have h2 : (0:ℚ) ≤ c * 0.30 := by positivity
    have h3 : (0:ℚ) ≤ od / mo * 0.20 := by positivity
    rw [hB]
    nlinarith
  have hp0 : altPenalty 0 = 1 := rfl
  have hpa : altPenalty a = 1 / (1 + (a : ℚ) * 0.3) := by
    unfold altPenalty
    rw [if_neg (by omega)]
  have hca : (1 : ℚ) ≤ (a : ℚ) := by exact_mod_cast ha
  have hden : (13 : ℚ)/10 ≤ 1 + (a : ℚ) * 0.3 := by nlinarith
  have hple : altPenalty a ≤ 10/13 := by
    rw [hpa, div_le_div_iff₀ (by linarith) (by norm_num)]
    linarith
  have hppos : 0 < altPenalty a := by
    rw [hpa]
    positivity
  have hgap : 9/13 ≤ B * 1 * 100 - B * altPenalty a * 100 := by nlinarith
  have hlow : nodeScore b c od mo (critWeight crit) (altPenalty a) ≤
      B * altPenalty a * 100 + 1/20 := by
    unfold nodeScore
    rw [← hB]
    exact roundTo_one_le _
  have hhigh : B * 1 * 100 - 1/20 ≤
      nodeScore b c od mo (critWeight crit) (altPenalty 0) := by
    unfold nodeScore
    rw [hp0, ← hB]
    exact le_roundTo_one _
  linarith

theorem spof_alternatives_monotonic_witness :
    nodeScore 0 0 0 1 (critWeight "low") (altPenalty 1) <
      nodeScore 0 0 0 1 (critWeight "low") (altPenalty 0) :=
  spof_alternatives_monotonic 0 0 0 1 "low" 1 (le_refl 0) (le_refl 0) (le_refl 0)
    (le_refl 1) (le_refl 1)

lemma mem_insertDesc {z x : List String × ℚ} :
    ∀ {l : List (List String × ℚ)}, z ∈ insertDesc x l → z = x ∨ z ∈ l
  | [], h => by simpa [insertDesc] using h
  | y :: l, h => by
    by_cases hxy : x.2 < y.2
    · rw [show insertDesc x (y :: l) = y :: insertDesc x l from by simp [insertDesc, hxy]] at h
      rcases List.mem_cons.mp h with rfl | h2
      · exact Or.inr (List.mem_cons_self _ _)
      · rcases mem_insertDesc h2 with h3 | h4
        · exact Or.inl h3
        · exact Or.inr (List.mem_cons_of_mem _ h4)
    · rw [show insertDesc x (y :: l) = x :: y :: l from by simp [insertDesc, hxy]] at h
      exact List.mem_cons.mp h

lemma mem_sortDesc {z : List String × ℚ} :
    ∀ {l : List (List String × ℚ)}, z ∈ sortDesc l → z ∈ l
  | x :: l, h => by
    rcases mem_insertDesc (l := sortDesc l) h with rfl | h2
    · exact List.mem_cons_self _ _
    · exact List.mem_cons_of_mem _ (mem_sortDesc h2)

lemma insertDesc_pairwise (x : List String × ℚ) :
    ∀ l : List (List String × ℚ), l.Pairwise (fun a b => b.2 ≤ a.2) →
      (insertDesc x l).Pairwise (fun a b => b.2 ≤ a.2)
  | [], _ => by simp [insertDesc]
  | y :: l, hp => by
    rcases List.pairwise_cons.mp hp with ⟨hy, hl⟩
    by_cases hxy : x.2 < y.2
    · rw [show insertDesc x (y :: l) = y :: insertDesc x l from by simp [insertDesc, hxy]]
      refine List.pairwise_cons.mpr ⟨?_, insertDesc_pairwise x l hl⟩
      intro z hz
      rcases mem_insertDesc hz with rfl | hzl
      · exact le_of_lt hxy
      · exact hy z hzl
    · rw [show insertDesc x (y :: l) = x :: y :: l from by simp [insertDesc, hxy]]
      refine List.pairwise_cons.mpr ⟨?_, hp⟩
      intro z hz
      rcases List.mem_cons.mp hz with rfl | hzl
      · exact le_of_not_lt hxy
      · exact le_trans (hy z hzl) (le_of_not_lt hxy)

lemma sortDesc_pairwise : ∀ l : List (List String × ℚ),
    (sortDesc l).Pairwise (fun a b => b.2 ≤ a.2)
  | [] => List.Pairwise.nil
  | x :: l => insertDesc_pairwise x (sortDesc l) (sortDesc_pairwise l)

lemma successors_edge {cfg : GraphConfig} {u n : String} (h : n ∈ successors cfg u) :
    (edgeWeight cfg u n).isSome := by
  unfold successors at h
  rcases List.mem_map.mp h with ⟨e, he, rfl⟩
  rcases List.mem_filter.mp he with ⟨hmem, hsrc⟩
  have hsrc' : e.1 = u := by simpa using hsrc
  have hfind : ((uniqueEdges cfg).find? (fun x => decide (x.1 = u ∧ x.2.1 = e.2.1))).isSome := by
    rw [List.find?_isSome]
    exact ⟨e, hmem, by simp [hsrc']⟩
  rcases Option.isSome_iff_exists.mp hfind with ⟨w, hw⟩
  unfold edgeWeight
  rw [hw]
  rfl

lemma simplePathsAux_sound (cfg : GraphConfig) (dst : String) :
    ∀ (fuel : ℕ) (cur : String) (visited : List String) (p : List String),
      cur ∈ visited → p ∈ simplePathsAux cfg dst fuel cur visited →
      p.head? = some cur ∧ p.getLast? = some dst ∧ chainOk cfg p = true ∧
        p.Nodup ∧ ∀ x ∈ p, x = cur ∨ x ∉ visited
  | 0, _, _, p, _, hp => absurd hp (List.not_mem_nil p)
  | fuel + 1, cur, visited, p, hcur, hp => by
    unfold simplePathsAux at hp
    by_cases hd : cur = dst
    · rw [if_pos hd] at hp
      rcases List.mem_singleton.mp hp with rfl
      refine ⟨rfl, by simp [hd], rfl, List.nodup_singleton cur, ?_⟩
      intro x hx
      exact Or.inl (List.mem_singleton.mp hx)
    · rw [if_neg hd] at hp
      rcases List.mem_flatMap.mp hp with ⟨n, hn, hpn⟩
      rcases List.mem_map.mp hpn with ⟨q, hq, rfl⟩
      rcases List.mem_filter.mp hn with ⟨hnsucc, hnvis'⟩
      have hnvis : n ∉ visited := by simpa using hnvis'
      obtain ⟨ihh, ihl, ihc, ihn, ihv⟩ :=
        simplePathsAux_sound cfg dst fuel n (n :: visited) q (List.mem_cons_self n visited) hq
      rcases q with _ | ⟨qh, qt⟩
      · exact absurd ihh (by simp)
      · have hqh : qh = n := by simpa using ihh
        subst qh
        refine ⟨rfl, ?_, ?_, ?_, ?_⟩
        · rw [List.getLast?_cons_cons]
          exact ihl
        · have hw := successors_edge hnsucc
          show ((edgeWeight cfg cur n).isSome && chainOk cfg (n :: qt)) = true
          rw [Bool.and_eq_true]
          exact ⟨hw, ihc⟩
        · refine List.nodup_cons.mpr ⟨?_, ihn⟩
          intro hcurq
          rcases ihv cur hcurq with h1 | h2
          · rw [h1] at hcur
            exact hnvis hcur
          · exact h2 (List.mem_cons_of_mem n hcur)
        · intro x hx
          rcases List.mem_cons.mp hx with rfl | hxq
          · exact Or.inl rfl
          · rcases ihv x hxq with rfl | hxv
            · exact Or.inr hnvis
            · exact Or.inr (fun hxvis => hxv (List.mem_cons_of_mem n hxvis))

lemma simplePaths_sound {cfg : GraphConfig} {src dst : String} {p : List String}
    (h : p ∈ simplePaths cfg src dst) :
    p.head? = some src ∧ p.getLast? = some dst ∧ chainOk cfg p = true ∧ p.Nodup :=
  have s := simplePathsAux_sound cfg dst (nodesOf cfg).length src [src] p
    (List.mem_singleton_self src) h
  ⟨s.1, s.2.1, s.2.2.1, s.2.2.2.1⟩

lemma mem_enumPaths {cfg : GraphConfig} {e : List String × ℚ} (h : e ∈ enumPaths cfg) :
    3 ≤ e.1.length ∧ e.2 = pathWeight cfg e.1 ∧
      ∃ src dst, src ≠ dst ∧ e.1 ∈ simplePaths cfg src dst := by
  unfold enumPaths at h
  rcases List.mem_flatMap.mp h with ⟨src, _, h2⟩
  rcases List.mem_flatMap.mp h2 with ⟨dst, _, h3⟩
  by_cases hsd : src = dst
  · rw [if_pos hsd] at h3
    exact absurd h3 (List.not_mem_nil e)
  · rw [if_neg hsd] at h3
    rcases List.mem_map.mp h3 with ⟨p, hp, rfl⟩
    rcases List.mem_filter.mp hp with ⟨hps, hlen⟩
    exact ⟨by simpa using hlen, rfl, src, dst, hsd, hps⟩

/-- C6: every entry of `critical_paths` is a simple directed path — at
least 3 pairwise-distinct nodes, consecutive ones joined by stored
edges — whose associated weight is the sum of the traversed edge
weights; the list is sorted in descending weight order; and the
enumeration terminates on cyclic graphs: on the three-node cycle it
returns exactly the three length-3 simple paths. -/
theorem critical_paths_properties :
    (∀ (cfg : GraphConfig) (p : List String) (w : ℚ), (p, w) ∈ criticalPaths cfg →
      3 ≤ p.length ∧ p.Nodup ∧ chainOk cfg p = true ∧ w = pathWeight cfg p) ∧
    (∀ cfg : GraphConfig, (criticalPaths cfg).Pairwise (fun a b => b.2 ≤ a.2)) ∧
    criticalPaths cycleCfg =
      [(["a", "b", "c"], 2), (["b", "c", "a"], 2), (["c", "a", "b"], 2)] := by
  refine ⟨?_, ?_, by with_unfolding_all rfl⟩
  · intro cfg p w h
    unfold criticalPaths at h
    obtain ⟨hlen, hw, src, dst, _, hps⟩ := mem_enumPaths (mem_sortDesc h)
    have hs := simplePaths_sound hps
    exact ⟨hlen, hs.2.2.2, hs.2.2.1, hw⟩
  · intro cfg
    exact sortDesc_pairwise _

theorem critical_paths_properties_witness :
    3 ≤ (["a", "b", "c"] : List String).length ∧
    (["a", "b", "c"] : List String).Nodup ∧
    chainOk cycleCfg ["a", "b", "c"] = true ∧
    (2 : ℚ) = pathWeight cycleCfg ["a", "b", "c"] :=
  critical_paths_properties.1 cycleCfg ["a", "b", "c"] 2 (by
    have h : criticalPaths cycleCfg =
        [(["a", "b", "c"], 2), (["b", "c", "a"], 2), (["c", "a", "b"], 2)] := by
      with_unfolding_all rfl
    rw [h]
    exact List.mem_cons_self _ _)

lemma monthStep_monthsSurvived (cfg : SimConfig) (g : Gen) (m : ℕ) (st : ScenState) :
    (monthStep cfg g m st).monthsSurvived = st.monthsSurvived := rfl

lemma runScenarioAux_ms_le (cfg : SimConfig) (g : Gen) :
    ∀ (rem m : ℕ) (st : ScenState),
      (runScenarioAux cfg g m rem st).monthsSurvived ≤
        max st.monthsSurvived (m + rem - 1)
  | 0, m, st => le_max_left _ _
  | rem + 1, m, st => by
    simp only [runScenarioAux]
    split
    · refine le_trans (runScenarioAux_ms_le cfg g rem (m + 1) _) ?_
      show max m (m + 1 + rem - 1) ≤ max st.monthsSurvived (m + (rem + 1) - 1)
      omega
    · rw [monthStep_monthsSurvived]
      exact le_max_left _ _

lemma mem_simulateAux (cfg : SimConfig) (g : Gen) :
    ∀ (n sid idx : ℕ) (r : ScenarioResult), r ∈ simulateAux cfg g n sid idx →
      ∃ s i, r = mkResult cfg s (runScenarioAux cfg g 1 cfg.horizon (initState cfg i))
  | 0, _, _, r, h => absurd h (List.not_mem_nil r)
  | n + 1, sid, idx, r, h => by
    unfold simulateAux at h
    rcases List.mem_cons.mp h with heq | htl
    · exact ⟨sid, idx, heq⟩
    · exact mem_simulateAux cfg g n (sid + 1) _ r htl

/-- C7: every scenario's `months_survived` lies between 0 and the
horizon (the type is ℕ, so the lower bound is intrinsic), and the
month loop's step behaves exactly as claimed: after processing month
`m` it records `months_survived = m` and continues precisely when the
reserve strictly exceeds the -20000 insolvency floor, and otherwise
stops with the state as of month `m`, simulating no further months. -/
theorem months_survived_bounds :
    (∀ (cfg : SimConfig) (g : Gen) (r : ScenarioResult), r ∈ simulateSurvival cfg g →
      r.months_survived ≤ cfg.horizon) ∧
    (∀ (cfg : SimConfig) (g : Gen) (m rem : ℕ) (st : ScenState),
      runScenarioAux cfg g m (rem + 1) st =
        if -20000 < (monthStep cfg g m st).cash then
          runScenarioAux cfg g (m + 1) rem { monthStep cfg g m st with monthsSurvived := m }
        else monthStep cfg g m st) := by
  constructor
  · intro cfg g r h
    obtain ⟨s, i, rfl⟩ := mem_simulateAux cfg g cfg.scenarios 0 0 r h
    have hb := runScenarioAux_ms_le cfg g cfg.horizon 1 (initState cfg i)
    have h0 : (initState cfg i).monthsSurvived = 0 := rfl
    rw [h0] at hb
    show (runScenarioAux cfg g 1 cfg.horizon (initState cfg i)).monthsSurvived ≤ cfg.horizon
    omega
  · intro cfg g m rem st
    rfl

theorem months_survived_bounds_witness :
    ({ scenario_id := 0, months_survived := 3, final_cash := 1500, total_revenue := 3000,
       avg_monthly := 1000, liquidity_breaches := 0, concentration_violations := 3,
       stream_totals := [("s", 3000)] } : ScenarioResult).months_survived ≤
      (exampleCfg 1 0 (1/4)).horizon :=
  months_survived_bounds.1 (exampleCfg 1 0 (1/4)) constHalf _ (by
    have h : simulateSurvival (exampleCfg 1 0 (1/4)) constHalf =
        [{ scenario_id := 0, months_survived := 3, final_cash := 1500, total_revenue := 3000,
           avg_monthly := 1000, liquidity_breaches := 0, concentration_violations := 3,
           stream_totals := [("s", 3000)] }] := by
      with_unfolding_all rfl
    rw [h]
    exact List.mem_cons_self _ _)

lemma runScenarioAux_succ (cfg : SimConfig) (g : Gen) (m rem : ℕ) (st : ScenState) :
    runScenarioAux cfg g m (rem + 1) st =
      if -20000 < (monthStep cfg g m st).cash then
        runScenarioAux cfg g (m + 1) rem { monthStep cfg g m st with monthsSurvived := m }
      else monthStep cfg g m st := rfl

lemma monthStep_set_ms (cfg : SimConfig) (g : Gen) (m v : ℕ) (st : ScenState) :
    monthStep cfg g m { st with monthsSurvived := v } =
      { monthStep cfg g m st with monthsSurvived := v } := rfl

lemma processMonths_set_ms (cfg : SimConfig) (g : Gen) (v : ℕ) :
    ∀ (k m : ℕ) (st : ScenState),
      processMonths cfg g m k { st with monthsSurvived := v } =
        { processMonths cfg g m k st with monthsSurvived := v }
  | 0, _, _ => rfl
  | k + 1, m, st => by
    simp only [processMonths]
    rw [monthStep_set_ms]
    exact processMonths_set_ms cfg g v k (m + 1) (monthStep cfg g m st)

lemma runScenario_first_breach (cfg : SimConfig) (g : Gen) :
    ∀ (k m rem : ℕ) (st : ScenState), k + 1 ≤ rem →
      (∀ j, j < k → -20000 < (processMonths cfg g m (j + 1) st).cash) →
      ¬ (-20000 < (processMonths cfg g m (k + 1) st).cash) →
      runScenarioAux cfg g m rem st =
        { processMonths cfg g m (k + 1) st with
          monthsSurvived := if k = 0 then st.monthsSurvived else m + k - 1 }
  | 0, m, rem, st, hrem, _, hbr => by
    obtain ⟨r, rfl⟩ : ∃ r, rem = r + 1 := ⟨rem - 1, by omega⟩
    rw [runScenarioAux_succ]
    have h1 : processMonths cfg g m 1 st = monthStep cfg g m st := rfl
    rw [h1] at hbr
    rw [if_neg hbr]
    rfl
  | k + 1, m, rem, st, hrem, hsurv, hbr => by
    obtain ⟨r, rfl⟩ : ∃ r, rem = r + 1 := ⟨rem - 1, by omega⟩
    rw [runScenarioAux_succ]
    have hs0 : -20000 < (monthStep cfg g m st).cash := hsurv 0 (by omega)
    rw [if_pos hs0]
    have hsurv2 : ∀ j, j < k →
        -20000 < (processMonths cfg g (m + 1) (j + 1)
          { monthStep cfg g m st with monthsSurvived := m }).cash := by
      intro j hj
      rw [processMonths_set_ms]
      exact hsurv (j + 1) (by omega)
    have hbr2 : ¬ (-20000 < (processMonths cfg g (m + 1) (k + 1)
        { monthStep cfg g m st with monthsSurvived := m }).cash) := by
      rw [processMonths_set_ms]
      exact hbr
    have ih := runScenario_first_breach cfg g k (m + 1) r
      { monthStep cfg g m st with monthsSurvived := m } (by omega) hsurv2 hbr2
    rw [ih, processMonths_set_ms]
    by_cases hk : k = 0
    · subst hk
      rfl
    · have hms : (if k = 0 then
          ({ monthStep cfg g m st with monthsSurvived := m } : ScenState).monthsSurvived
          else m + 1 + k - 1) = m + (k + 1) - 1 := by
        rw [if_neg hk]
        omega
      rw [hms]
      rfl

/-- C9: when a trajectory is cut off because the reserve falls to
-20000 or below at month M (the first such month), the emitted state is
exactly the state after M fully processed months — the terminating
month's revenues, expenses and stop-rule counters are all included —
while `months_survived` stays at M - 1.  The `ScenarioResult` is built
from this state, so its `final_cash`, `total_revenue`, per-stream
totals and violation counts all account for month M. -/
theorem terminating_month_accounted (cfg : SimConfig) (g : Gen) (M idx : ℕ)
    (h1 : 1 ≤ M) (h2 : M ≤ cfg.horizon)
    (hsurv : ∀ j, j + 1 < M →
      -20000 < (processMonths cfg g 1 (j + 1) (initState cfg idx)).cash)
    (hbr : ¬ (-20000 < (processMonths cfg g 1 M (initState cfg idx)).cash)) :
    runScenarioAux cfg g 1 cfg.horizon (initState cfg idx) =
      { processMonths cfg g 1 M (initState cfg idx) with monthsSurvived := M - 1 } := by
  obtain ⟨k, rfl⟩ : ∃ k, M = k + 1 := ⟨M - 1, by omega⟩
  have h := runScenario_first_breach cfg g k 1 cfg.horizon (initState cfg idx) (by omega)
    (fun j hj => hsurv j (by omega)) hbr
  rw [h]
  by_cases hk : k = 0
  · subst hk
    rfl
  · have hms : (if k = 0 then (initState cfg idx).monthsSurvived else 1 + k - 1) =
        k + 1 - 1 := by
      rw [if_neg hk]
      omega
    rw [hms]

theorem terminating_month_accounted_witness :
    runScenarioAux breachCfg constZero 1 breachCfg.horizon (initState breachCfg 0) =
      { processMonths breachCfg constZero 1 1 (initState breachCfg 0) with
        monthsSurvived := 0 } := by
  refine terminating_month_accounted breachCfg constZero 1 0 (le_refl 1) (by decide)
    (fun j hj => absurd hj (by omega)) ?_
  have hc : (processMonths breachCfg constZero 1 1 (initState breachCfg 0)).cash = -30000 := by
    with_unfolding_all rfl
  rw [hc]
  norm_num

lemma roundTo_1000 : roundTo 2 (1000 : ℚ) = 1000 := by with_unfolding_all rfl

lemma roundTo_1500 : roundTo 2 (1500 : ℚ) = 1500 := by with_unfolding_all rfl

lemma exampleDraws (g : Gen) (hg : ∀ j, g j < 1) (month idx : ℕ) :
    monthDraws g month
      [{ name := "s", monthly_base := 1000, monthly_upside := 1000,
         probability_active := 1, volatility := 0, concentration_current := 0 }] idx =
      ([1000], 1000, idx + 2) := by
  have h1 : g idx < (1:ℚ) := hg idx
  norm_num [monthDraws, h1, roundTo_1000]

lemma exampleMonth (n : ℕ) (f c : ℚ) (g : Gen) (hg : ∀ j, g j < 1) (m : ℕ)
    (st : ScenState) :
    monthStep (exampleCfg n f c) g m st =
      { st with
        idx := st.idx + 3
        cash := st.cash + 500
        liqBreaches := st.liqBreaches + (if st.cash + 500 < f then 1 else 0)
        concViols := st.concViols + (if 1 > c then 1 else 0)
        monthlyTotals := st.monthlyTotals ++ [1000]
        streamRevs := List.zipWith (fun l r => l ++ [r]) st.streamRevs [1000] } := by
  unfold monthStep
  rw [show (exampleCfg n f c).streams =
    [{ name := "s", monthly_base := 1000, monthly_upside := 1000,
       probability_active := 1, volatility := 0, concentration_current := 0 }] from rfl]
  rw [exampleDraws g hg m st.idx]
  norm_num [roundTo_1000, exampleCfg]
  ring_nf
  exact ⟨trivial, trivial⟩

lemma exampleScenario (n : ℕ) (f c : ℚ) (g : Gen) (hg : ∀ j, g j < 1) (idx : ℕ) :
    runScenarioAux (exampleCfg n f c) g 1 3 (initState (exampleCfg n f c) idx) =
      ⟨idx + 9, 1500, 3,
        (if (500:ℚ) < f then 1 else 0) + (if (1000:ℚ) < f then 1 else 0) +
          (if (1500:ℚ) < f then 1 else 0),
        (if c < 1 then 1 else 0) + (if c < 1 then 1 else 0) + (if c < 1 then 1 else 0),
        [1000, 1000, 1000], [[1000, 1000, 1000]]⟩ := by
  have h0 : initState (exampleCfg n f c) idx = ⟨idx, 0, 0, 0, 0, [], [[]]⟩ := rfl
  have h1 : monthStep (exampleCfg n f c) g 1 ⟨idx, 0, 0, 0, 0, [], [[]]⟩ =
      ⟨idx + 3, 500, 0, (if (500:ℚ) < f then 1 else 0), (if c < 1 then 1 else 0),
        [1000], [[1000]]⟩ := by
    rw [exampleMonth n f c g hg]
    norm_num
  have h2 : monthStep (exampleCfg n f c) g 2
      ⟨idx + 3, 500, 1, (if (500:ℚ) < f then 1 else 0), (if c < 1 then 1 else 0),
        [1000], [[1000]]⟩ =
      ⟨idx + 6, 1000, 1,
        (if (500:ℚ) < f then 1 else 0) + (if (1000:ℚ) < f then 1 else 0),
        (if c < 1 then 1 else 0) + (if c < 1 then 1 else 0),
        [1000, 1000], [[1000, 1000]]⟩ := by
    rw [exampleMonth n f c g hg]
    norm_num
  have h3 : monthStep (exampleCfg n f c) g 3
      ⟨idx + 6, 1000, 2,
        (if (500:ℚ) < f then 1 else 0) + (if (1000:ℚ) < f then 1 else 0),
        (if c < 1 then 1 else 0) + (if c < 1 then 1 else 0),
        [1000, 1000], [[1000, 1000]]⟩ =
      ⟨idx + 9, 1500, 2,
        (if (500:ℚ) < f then 1 else 0) + (if (1000:ℚ) < f then 1 else 0) +
          (if (1500:ℚ) < f then 1 else 0),
        (if c < 1 then 1 else 0) + (if c < 1 then 1 else 0) + (if c < 1 then 1 else 0),
        [1000, 1000, 1000], [[1000, 1000, 1000]]⟩ := by
    rw [exampleMonth n f c g hg]
    norm_num
  rw [h0, runScenarioAux_succ, h1]
  norm_num
  rw [runScenarioAux_succ, h2]
  norm_num
  rw [runScenarioAux_succ, h3]
  norm_num
  rfl

/-- C5: in the spec's worked scenario — one stream with base = upside =
1000, activation probability 1, volatility 0, horizon 3 months, fixed
expenses 500 a month, starting cash 0 — every scenario (for any
scenario count, liquidity floor and concentration cap, and any random
stream drawing values in [0, 1)) ends with final cash exactly 1500 and
months_survived = 3, and records zero liquidity breaches whenever the
liquidity floor is at most 0. -/
theorem mc_scenario_example (n : ℕ) (f c : ℚ) (g : Gen)
    (hg : ∀ j, 0 ≤ g j ∧ g j < 1) :
    ∀ r ∈ simulateSurvival (exampleCfg n f c) g,
      r.final_cash = 1500 ∧ r.months_survived = 3 ∧
        (f ≤ 0 → r.liquidity_breaches = 0) := by
  intro r hr
  obtain ⟨s, i, rfl⟩ := mem_simulateAux (exampleCfg n f c) g _ 0 0 r hr
  have hh : (exampleCfg n f c).horizon = 3 := rfl
  rw [hh, exampleScenario n f c g (fun j => (hg j).2) i]
  refine ⟨?_, rfl, ?_⟩
  · show roundTo 2 (1500 : ℚ) = 1500
    exact roundTo_1500
  · intro hf
    show ((if (500:ℚ) < f then 1 else 0) + (if (1000:ℚ) < f then 1 else 0) +
      (if (1500:ℚ) < f then 1 else 0) : ℕ) = 0
    rw [if_neg (by linarith), if_neg (by linarith), if_neg (by linarith)]

theorem mc_scenario_example_witness :
    ({ scenario_id := 0, months_survived := 3, final_cash := 1500, total_revenue := 3000,
       avg_monthly := 1000, liquidity_breaches := 0, concentration_violations := 0,
       stream_totals := [("s", 3000)] } : ScenarioResult).final_cash = 1500 ∧
    ({ scenario_id := 0, months_survived := 3, final_cash := 1500, total_revenue := 3000,
       avg_monthly := 1000, liquidity_breaches := 0, concentration_violations := 0,
       stream_totals := [("s", 3000)] } : ScenarioResult).months_survived = 3 ∧
    ((-1 : ℚ) ≤ 0 →
      ({ scenario_id := 0, months_survived := 3, final_cash := 1500, total_revenue := 3000,
         avg_monthly := 1000, liquidity_breaches := 0, concentration_violations := 0,
         stream_totals := [("s", 3000)] } : ScenarioResult).liquidity_breaches = 0) :=
  mc_scenario_example 1 (-1) 2 constZero
    (fun j => ⟨le_refl 0, by norm_num [constZero]⟩) _ (by
      have h : simulateSurvival (exampleCfg 1 (-1) 2) constZero =
          [{ scenario_id := 0, months_survived := 3, final_cash := 1500, total_revenue := 3000,
             avg_monthly := 1000, liquidity_breaches := 0, concentration_violations := 0,
             stream_totals := [("s", 3000)] }] := by
        with_unfolding_all rfl
      rw [h]
      exact List.mem_cons_self _ _)

end MW
